import Mathlib

/-!
# Verification of the postcode clustering pipeline

A shallow embedding of the clustering logic of this repository.

* The `postcodes` table is a list of `Row`s; SQL `NULL` becomes `Option`.
* `resetRow` / `resetClusters` embed the reset `UPDATE` that clears previous
  cluster data (`0_Create_Clusters.py`, `generate_clusters`, first statement).
* `numberedLocations`, `coveredIds`, `potentialClusters`, `distinctOnSig`,
  `numberClusters`, `optimizedClusters` embed the CTE chain of the main query:
  geocoded rows, per-center covered-id arrays (`ARRAY_AGG(DISTINCT b.id ORDER BY
  b.id)`), `SELECT DISTINCT ON (covered_postcodes) ... ORDER BY covered_postcodes,
  coverage_count DESC`, and `ROW_NUMBER() OVER ()`.
* `applyCenterUpdate` embeds the `UPDATE ... FROM optimized_clusters` marking
  centers; `memberUpdate` embeds the second `UPDATE ... FROM postcodes c`
  assigning `cluster_id` to covered rows.
* The join condition `2 * 6371 * asin(sqrt(...)) <= radius` is kept abstract as
  a boolean predicate `covered` on the four coordinates; `haversine` and
  `haversineCovered` give the concrete instantiation over the reals.

Where the SQL leaves a row order implementation-defined (the row produced by
`DISTINCT ON` among rows equal under the `ORDER BY` key, and the joined row
used by an `UPDATE ... FROM` when several match), the embedding fixes it as the
scan order of the list representing the table, and sorting is embedded by the
stable `List.insertionSort`.
-/

namespace Directory

/-- A row of the `postcodes` table, with the columns used by the clustering
step.  `α` is the type of a coordinate (a latitude or longitude). -/
structure Row (α : Type) where
  id : Nat
  postcode : String
  latitude : Option α
  longitude : Option α
  is_cluster_center : Bool
  cluster_id : Option Nat
  cluster_postcodes : Option (List Nat)
  last_scraped : Option Nat
  last_updated : Nat
  scrape_status : String
  error_message : Option String
  deriving DecidableEq, Repr

/-- A row of the `numbered_locations` CTE: a geocoded postcode. -/
structure GeoRow (α : Type) where
  id : Nat
  postcode : String
  latitude : α
  longitude : α
  deriving DecidableEq, Repr

/-- A row of the `potential_clusters` CTE: a candidate center with its
covered-id array and coverage count. -/
structure Candidate (α : Type) where
  center_id : Nat
  center_postcode : String
  latitude : α
  longitude : α
  covered_postcodes : List Nat
  coverage_count : Nat
  deriving DecidableEq, Repr

/-- A row of the `optimized_clusters` CTE: a surviving candidate together with
its `ROW_NUMBER() OVER ()` cluster id. -/
structure Selected (α : Type) where
  center_id : Nat
  center_postcode : String
  latitude : α
  longitude : α
  covered_postcodes : List Nat
  coverage_count : Nat
  cluster_id : Nat
  deriving DecidableEq, Repr

variable {α : Type}

/-- The reset `UPDATE`: on rows that were cluster centers or carried a
`cluster_id`, clear the cluster columns, set `scrape_status` to `pending` and
`error_message` to `NULL`; other rows are untouched. -/
def resetRow (r : Row α) : Row α :=
  if r.is_cluster_center = true ∨ r.cluster_id ≠ none then
    { r with is_cluster_center := false, cluster_id := none, cluster_postcodes := none,
             scrape_status := "pending", error_message := none }
  else r

/-- The reset step applied to the whole table. -/
def resetClusters (db : List (Row α)) : List (Row α) :=
  db.map resetRow

/-- The `numbered_locations` CTE: rows with non-null latitude and longitude. -/
def numberedLocations (db : List (Row α)) : List (GeoRow α) :=
  db.filterMap fun r =>
    match r.latitude, r.longitude with
    | some la, some lo => some ⟨r.id, r.postcode, la, lo⟩
    | some _, none => none
    | none, _ => none

/-- The aggregate `ARRAY_AGG(DISTINCT b.id ORDER BY b.id)` over the rows `b` joined to the
candidate center `a` by the distance predicate `covered`: the distinct ids of
covered rows, sorted ascending. -/
def coveredIds (covered : α → α → α → α → Bool) (geo : List (GeoRow α)) (a : GeoRow α) :
    List Nat :=
  List.insertionSort (fun i j => i ≤ j)
    ((geo.filter fun b => covered a.latitude a.longitude b.latitude b.longitude).map
      GeoRow.id).dedup

/-- The `potential_clusters` CTE: one candidate per geocoded row, carrying its
covered-id array and its coverage count (`COUNT(DISTINCT b.id)`). -/
def potentialClusters (covered : α → α → α → α → Bool) (geo : List (GeoRow α)) :
    List (Candidate α) :=
  geo.map fun a =>
    ⟨a.id, a.postcode, a.latitude, a.longitude, coveredIds covered geo a,
      (coveredIds covered geo a).length⟩

/-- Lexicographic strict order on id arrays, as Postgres compares integer
arrays (element by element, a strict prefix being smaller). -/
def listLtB : List Nat → List Nat → Bool
  | [], [] => false
  | [], _ :: _ => true
  | _ :: _, [] => false
  | a :: as, b :: bs => if a < b then true else if b < a then false else listLtB as bs

/-- The `ORDER BY pc.covered_postcodes, pc.coverage_count DESC` key of the
`optimized_clusters` CTE, as a preorder on candidates. -/
def candLE (c c' : Candidate α) : Prop :=
  listLtB c.covered_postcodes c'.covered_postcodes = true ∨
    (c.covered_postcodes = c'.covered_postcodes ∧ c'.coverage_count ≤ c.coverage_count)

instance : DecidableRel (@candLE α) := fun c c' => by
  unfold candLE
  infer_instance

/-- The clause `SELECT DISTINCT ON (covered_postcodes)`: keep the first row of each group
of rows sharing a covered-id array, scanning in list order; `seen` accumulates
the arrays already represented. -/
def distinctOnSig : List (Candidate α) → List (List Nat) → List (Candidate α)
  | [], _ => []
  | c :: cs, seen =>
    if c.covered_postcodes ∈ seen then distinctOnSig cs seen
    else c :: distinctOnSig cs (c.covered_postcodes :: seen)

/-- The window `ROW_NUMBER() OVER ()`: number the surviving candidates sequentially,
starting from `n`. -/
def numberClusters : Nat → List (Candidate α) → List (Selected α)
  | _, [] => []
  | n, c :: cs =>
    ⟨c.center_id, c.center_postcode, c.latitude, c.longitude, c.covered_postcodes,
      c.coverage_count, n⟩ :: numberClusters (n + 1) cs

/-- The `optimized_clusters` CTE: sort the candidates by the `ORDER BY` key,
keep one representative per distinct covered-id array, and number them from 1. -/
def optimizedClusters (covered : α → α → α → α → Bool) (geo : List (GeoRow α)) :
    List (Selected α) :=
  numberClusters 1 (distinctOnSig (List.insertionSort candLE (potentialClusters covered geo)) [])

/-- The center-marking `UPDATE ... FROM optimized_clusters oc WHERE p.id =
oc.center_id`, on a single row. -/
def applyCenterUpdate (now : Nat) (ocs : List (Selected α)) (p : Row α) : Row α :=
  match ocs.find? (fun oc => oc.center_id == p.id) with
  | some oc =>
    { p with is_cluster_center := true, cluster_id := some oc.cluster_id,
             cluster_postcodes := some oc.covered_postcodes, last_updated := now,
             scrape_status := "pending" }
  | none => p

/-- The join condition of the member `UPDATE`: `c.is_cluster_center = TRUE AND
p.id = ANY(c.cluster_postcodes) AND p.id != c.id` (a `NULL` array covers
nothing). -/
def memberMatch (p c : Row α) : Bool :=
  c.is_cluster_center && (c.cluster_postcodes.getD []).contains p.id && (c.id != p.id)

/-- The member `UPDATE ... FROM postcodes c`, on a single target row: copy the
`cluster_id` of the first matching center in table-scan order. -/
def memberUpdate (now : Nat) (centers : List (Row α)) (p : Row α) : Row α :=
  match centers.find? (memberMatch p) with
  | some c => { p with cluster_id := c.cluster_id, last_updated := now }
  | none => p

/-- The whole `generate_clusters` run: reset, select clusters, mark centers,
assign members; returns the final table and `len(clusters_added)` (the number
of rows returned by the center-marking `UPDATE`). -/
def generateClusters (covered : α → α → α → α → Bool) (now : Nat) (db : List (Row α)) :
    List (Row α) × Nat :=
  let db0 := resetClusters db
  let ocs := optimizedClusters covered (numberedLocations db0)
  let db1 := db0.map (applyCenterUpdate now ocs)
  let added := (db0.filter fun p => ocs.any fun oc => oc.center_id == p.id).length
  (db1.map (memberUpdate now db1), added)

/-- The SQL `radians(x)` function: degrees to radians. -/
noncomputable def radians (x : ℝ) : ℝ := x * Real.pi / 180

/-- The Haversine great-circle distance of the SQL join condition:
`2 * 6371 * asin(sqrt(sin(radians(lat2-lat1)/2)^2 + cos(radians(lat1)) *
cos(radians(lat2)) * sin(radians(lon2-lon1)/2)^2))`. -/
noncomputable def haversine (lat1 lon1 lat2 lon2 : ℝ) : ℝ :=
  2 * 6371 * Real.arcsin (Real.sqrt
    (Real.sin (radians (lat2 - lat1) / 2) ^ 2 +
      Real.cos (radians lat1) * Real.cos (radians lat2) *
        Real.sin (radians (lon2 - lon1) / 2) ^ 2))

/-- The SQL join predicate `haversine <= radius`, as the coverage predicate of
the clustering run over real coordinates. -/
noncomputable def haversineCovered (radius : ℝ) (lat1 lon1 lat2 lon2 : ℝ) : Bool :=
  @decide (haversine lat1 lon1 lat2 lon2 ≤ radius) (Classical.dec _)

/-- The run of `generate_clusters` with the Haversine join condition at a given radius. -/
noncomputable def generateClustersHaversine (radius : ℝ) (now : Nat) (db : List (Row ℝ)) :
    List (Row ℝ) × Nat :=
  generateClusters (haversineCovered radius) now db

/-- The selected clusters of a run with the Haversine join condition. -/
noncomputable def optimizedClustersHaversine (radius : ℝ) (geo : List (GeoRow ℝ)) :
    List (Selected ℝ) :=
  optimizedClusters (haversineCovered radius) geo

/-- A candidate center's coverage set under the Haversine join condition. -/
noncomputable def coveredIdsHaversine (radius : ℝ) (geo : List (GeoRow ℝ)) (a : GeoRow ℝ) :
    List Nat :=
  coveredIds (haversineCovered radius) geo a

/-- A row of the `postcode_clusters` table read by `get_next_cluster`
(`1_Places_scraper.py`). -/
structure ClusterRow (α : Type) where
  id : Nat
  center_postcode_id : Nat
  center_postcode : String
  latitude : α
  longitude : α
  covered_postcodes : List Nat
  last_scraped : Option Nat
  deriving DecidableEq, Repr

/-- The `WHERE` clause of `get_next_cluster`: `last_scraped IS NULL OR
last_scraped < NOW() - INTERVAL '7 days'`; `cutoff` stands for the timestamp
`NOW() - INTERVAL '7 days'`. -/
def needsScrape (cutoff : Nat) (r : ClusterRow α) : Bool :=
  match r.last_scraped with
  | none => true
  | some t => decide (t < cutoff)

/-- The `ORDER BY last_scraped NULLS FIRST` key order on nullable timestamps:
null sorts before every timestamp, timestamps sort ascending. -/
def optLE : Option Nat → Option Nat → Bool
  | none, _ => true
  | some _, none => false
  | some t, some u => t ≤ u

/-- The `ORDER BY last_scraped NULLS FIRST` order on cluster rows. -/
def scrapeLE (r c : ClusterRow α) : Prop := optLE r.last_scraped c.last_scraped = true

instance : DecidableRel (@scrapeLE α) := fun _ _ => instDecidableEqBool _ _

/-- The query `get_next_cluster`: among rows needing a scrape, the first under
`ORDER BY last_scraped NULLS FIRST` (`LIMIT 1`). -/
def getNextCluster (cutoff : Nat) (db : List (ClusterRow α)) : Option (ClusterRow α) :=
  (List.insertionSort scrapeLE (db.filter (needsScrape cutoff))).head?

/-- The immutable input of a clustering run: id, postcode and coordinates. -/
def rowKey (r : Row α) : Nat × String × Option α × Option α :=
  (r.id, r.postcode, r.latitude, r.longitude)

/-- The cluster-id-to-coverage-set mapping a run produces. -/
def clusterMap (covered : α → α → α → α → Bool) (db : List (Row α)) : List (Nat × List Nat) :=
  (optimizedClusters covered (numberedLocations (resetClusters db))).map
    fun oc => (oc.cluster_id, oc.covered_postcodes)

/-- The per-point cluster assignment a run produces: each row's id with its
final `cluster_id`. -/
def assignment (covered : α → α → α → α → Bool) (now : Nat) (db : List (Row α)) :
    List (Nat × Option Nat) :=
  (generateClusters covered now db).fst.map fun r => (r.id, r.cluster_id)

/-- The geocoded rows a run reads, taken from the table after the reset. -/
def geoOf (db : List (Row α)) : List (GeoRow α) :=
  numberedLocations (resetClusters db)

/-- The selected clusters of a run on the given table. -/
def ocsOf (covered : α → α → α → α → Bool) (db : List (Row α)) : List (Selected α) :=
  optimizedClusters covered (geoOf db)

/-- The table state after the reset and the center-marking `UPDATE`. -/
def db1Of (covered : α → α → α → α → Bool) (now : Nat) (db : List (Row α)) : List (Row α) :=
  (resetClusters db).map (applyCenterUpdate now (ocsOf covered db))

/-- Forget the cluster number of a selected cluster, recovering the candidate
it came from. -/
def selCand (oc : Selected α) : Candidate α :=
  ⟨oc.center_id, oc.center_postcode, oc.latitude, oc.longitude, oc.covered_postcodes,
    oc.coverage_count⟩

/-- The columns of a row that the member `UPDATE` join reads. -/
structure RelKey where
  id : Nat
  center : Bool
  cid : Option Nat
  cps : Option (List Nat)
  deriving DecidableEq, Repr

/-- Project a row to what the member `UPDATE` join reads: its id, center flag,
`cluster_id`, and, on center rows only, its covered array (the join never reads
the array of a non-center row). -/
def relKey (r : Row α) : RelKey :=
  ⟨r.id, r.is_cluster_center, r.cluster_id,
    if r.is_cluster_center then r.cluster_postcodes else none⟩

/-- The join columns a row with the given id carries right after the
center-marking `UPDATE` against the selected clusters `ocs`. -/
def centerKeyOf (ocs : List (Selected α)) (i : Nat) : RelKey :=
  match ocs.find? (fun oc => oc.center_id == i) with
  | some oc => ⟨i, true, some oc.cluster_id, some oc.covered_postcodes⟩
  | none => ⟨i, false, none, none⟩

/-- The member `UPDATE` join condition, read off the join columns. -/
def keyMatch (i : Nat) (k : RelKey) : Bool :=
  k.center && (k.cps.getD []).contains i && (k.id != i)

/-- The id-and-final-`cluster_id` pair of a row, as a function of the join
columns of the table and of the row. -/
def assignPair (keys : List RelKey) (k : RelKey) : Nat × Option Nat :=
  match keys.find? (keyMatch k.id) with
  | some c => (k.id, c.cid)
  | none => (k.id, k.cid)

/-- Rebuild the geocoded projection of a row from its immutable columns. -/
def geoOfKey : Nat × String × Option α × Option α → Option (GeoRow α)
  | (i, pc, some la, some lo) => some (⟨i, pc, la, lo⟩ : GeoRow α)
  | (_, _, some _, none) => none
  | (_, _, none, _) => none

/-- A candidate whose coverage count is the cardinality of its covered-id
array, as every candidate built by `potentialClusters` is. -/
def candOk (c : Candidate α) : Prop :=
  c.coverage_count = c.covered_postcodes.length

/-- A concrete coverage predicate over integer coordinates (squared flat
distance at most `r2`), used to run the generic pipeline on computable data. -/
def covSq (r2 la lo lb lob : Int) : Bool :=
  decide ((lb - la) ^ 2 + (lob - lo) ^ 2 ≤ r2)

/-- A fresh, never-clustered row with integer coordinates. -/
def exRow (i : Nat) (la lo : Option Int) : Row Int :=
  ⟨i, "P", la, lo, false, none, none, none, 0, "new", none⟩

/-- A row carrying arbitrary stale cluster data. -/
def exRowDirty (i : Nat) (la lo : Option Int) (ic : Bool) (cid : Option Nat)
    (cps : Option (List Nat)) (st : String) (em : Option String) : Row Int :=
  ⟨i, "P", la, lo, ic, cid, cps, some 7, 3, st, em⟩

/-- The three-point scenario: two nearby points and one far point. -/
def dbScenario : List (Row Int) :=
  [exRow 1 (some 0) (some 0), exRow 2 (some 2) (some 0), exRow 3 (some 10) (some 0)]

/-- Two rows at the same location, stored with the larger id first. -/
def dbTieOrder : List (Row Int) :=
  [exRow 2 (some 0) (some 0), exRow 1 (some 0) (some 0)]

/-- Three collinear points with pairwise-overlapping coverage, stored with the
largest id first. -/
def dbOverlap : List (Row Int) :=
  [exRow 3 (some 4) (some 0), exRow 1 (some 0) (some 0), exRow 2 (some 2) (some 0)]

/-- A table with no geocoded row. -/
def dbNoGeo : List (Row Int) :=
  [exRow 1 none none, exRow 2 (some 1) none]

/-- A starting state with stale cluster data on the first row. -/
def dbDirty1 : List (Row Int) :=
  [exRowDirty 1 (some 0) (some 0) true (some 5) (some [9]) "completed" (some "x"),
    exRow 2 (some 2) (some 0)]

/-- The same input point set as `dbDirty1`, with different stale state. -/
def dbDirty2 : List (Row Int) :=
  [exRow 1 (some 0) (some 0),
    exRowDirty 2 (some 2) (some 0) false (some 4) none "failed" none]

/-- A `postcode_clusters` row with a given last-scraped timestamp. -/
def exCluster (i : Nat) (ls : Option Nat) : ClusterRow Int :=
  ⟨i, i, "P", 0, 0, [i], ls⟩

/-- A concrete cluster queue: stale, never-scraped, fresh and very stale rows. -/
def dbNext : List (ClusterRow Int) :=
  [exCluster 1 (some 50), exCluster 2 none, exCluster 3 (some 200), exCluster 4 (some 5)]

/-- Two geocoded points one degree of longitude apart, on the equator. -/
noncomputable def geoA : GeoRow ℝ := ⟨1, "A", 0, 0⟩

/-- See `geoA`. -/
noncomputable def geoB : GeoRow ℝ := ⟨2, "B", 0, 1⟩

/-- A two-point geocoded table over the reals. -/
noncomputable def geoW : List (GeoRow ℝ) := [geoA, geoB]

/-- A one-row real-coordinate table. -/
noncomputable def rowR1 : Row ℝ :=
  ⟨1, "A", some 0, some 0, false, none, none, none, 0, "new", none⟩

/-- See `rowR1`. -/
noncomputable def dbR : List (Row ℝ) := [rowR1]

/-- The row `rowR1` after a Haversine clustering run at a nonnegative radius:
its own singleton cluster. -/
noncomputable def rowR1run : Row ℝ :=
  ⟨1, "A", some 0, some 0, true, some 1, some [1], none, 0, "pending", none⟩

/-! ## Field-preservation lemmas for the three update steps -/

@[simp]
theorem resetRow_id (r : Row α) : (resetRow r).id = r.id := by
  unfold resetRow
  split <;> rfl

@[simp]
theorem resetRow_postcode (r : Row α) : (resetRow r).postcode = r.postcode := by
  unfold resetRow
  split <;> rfl

@[simp]
theorem resetRow_latitude (r : Row α) : (resetRow r).latitude = r.latitude := by
  unfold resetRow
  split <;> rfl

@[simp]
theorem resetRow_longitude (r : Row α) : (resetRow r).longitude = r.longitude := by
  unfold resetRow
  split <;> rfl

@[simp]
theorem resetRow_last_scraped (r : Row α) : (resetRow r).last_scraped = r.last_scraped := by
  unfold resetRow
  split <;> rfl

@[simp]
theorem resetRow_last_updated (r : Row α) : (resetRow r).last_updated = r.last_updated := by
  unfold resetRow
  split <;> rfl

theorem resetRow_state (r : Row α) :
    (resetRow r).is_cluster_center = false ∧ (resetRow r).cluster_id = none := by
  unfold resetRow
  split
  · exact ⟨rfl, rfl⟩
  · next h =>
    simp only [not_or, Bool.not_eq_true, ne_eq, not_not] at h
    exact ⟨h.1, h.2⟩

@[simp]
theorem applyCenterUpdate_id (now : Nat) (ocs : List (Selected α)) (p : Row α) :
    (applyCenterUpdate now ocs p).id = p.id := by
  unfold applyCenterUpdate
  split <;> rfl

@[simp]
theorem applyCenterUpdate_postcode (now : Nat) (ocs : List (Selected α)) (p : Row α) :
    (applyCenterUpdate now ocs p).postcode = p.postcode := by
  unfold applyCenterUpdate
  split <;> rfl

@[simp]
theorem applyCenterUpdate_latitude (now : Nat) (ocs : List (Selected α)) (p : Row α) :
    (applyCenterUpdate now ocs p).latitude = p.latitude := by
  unfold applyCenterUpdate
  split <;> rfl

@[simp]
theorem applyCenterUpdate_longitude (now : Nat) (ocs : List (Selected α)) (p : Row α) :
    (applyCenterUpdate now ocs p).longitude = p.longitude := by
  unfold applyCenterUpdate
  split <;> rfl

theorem applyCenterUpdate_pos {ocs : List (Selected α)} {p : Row α} {oc : Selected α}
    (now : Nat) (h : ocs.find? (fun oc => oc.center_id == p.id) = some oc) :
    applyCenterUpdate now ocs p =
      { p with is_cluster_center := true, cluster_id := some oc.cluster_id,
               cluster_postcodes := some oc.covered_postcodes, last_updated := now,
               scrape_status := "pending" } := by
  unfold applyCenterUpdate
  rw [h]

theorem applyCenterUpdate_neg {ocs : List (Selected α)} {p : Row α}
    (now : Nat) (h : ocs.find? (fun oc => oc.center_id == p.id) = none) :
    applyCenterUpdate now ocs p = p := by
  unfold applyCenterUpdate
  rw [h]

@[simp]
theorem memberUpdate_id (now : Nat) (l : List (Row α)) (p : Row α) :
    (memberUpdate now l p).id = p.id := by
  unfold memberUpdate
  split <;> rfl

@[simp]
theorem memberUpdate_center (now : Nat) (l : List (Row α)) (p : Row α) :
    (memberUpdate now l p).is_cluster_center = p.is_cluster_center := by
  unfold memberUpdate
  split <;> rfl

@[simp]
theorem memberUpdate_postcodes (now : Nat) (l : List (Row α)) (p : Row α) :
    (memberUpdate now l p).cluster_postcodes = p.cluster_postcodes := by
  unfold memberUpdate
  split <;> rfl

@[simp]
theorem memberUpdate_latitude (now : Nat) (l : List (Row α)) (p : Row α) :
    (memberUpdate now l p).latitude = p.latitude := by
  unfold memberUpdate
  split <;> rfl

@[simp]
theorem memberUpdate_longitude (now : Nat) (l : List (Row α)) (p : Row α) :
    (memberUpdate now l p).longitude = p.longitude := by
  unfold memberUpdate
  split <;> rfl

theorem memberUpdate_pos {l : List (Row α)} {p c : Row α}
    (now : Nat) (h : l.find? (memberMatch p) = some c) :
    memberUpdate now l p = { p with cluster_id := c.cluster_id, last_updated := now } := by
  unfold memberUpdate
  rw [h]

theorem memberUpdate_neg {l : List (Row α)} {p : Row α}
    (now : Nat) (h : l.find? (memberMatch p) = none) :
    memberUpdate now l p = p := by
  unfold memberUpdate
  rw [h]

theorem resetRow_resetRow (r : Row α) : resetRow (resetRow r) = resetRow r := by
  by_cases h : r.is_cluster_center = true ∨ r.cluster_id ≠ none <;> simp [resetRow, h]

/-- C8: running the reset step twice in a row leaves the persisted state
identical to running it once, from every starting state. -/
theorem reset_idempotent (db : List (Row α)) :
    resetClusters (resetClusters db) = resetClusters db := by
  unfold resetClusters
  rw [List.map_map]
  exact List.map_congr_left fun r _ => resetRow_resetRow r

/-- C10: the reset step modifies only rows that were cluster centers or carried
a `cluster_id`; on those rows it clears the three cluster columns, sets
`scrape_status` to `pending` and `error_message` to `NULL`, and every other
column (and every never-clustered row) is unchanged. -/
theorem reset_frame (r : Row α) :
    (¬(r.is_cluster_center = true ∨ r.cluster_id ≠ none) → resetRow r = r) ∧
    (resetRow r).id = r.id ∧ (resetRow r).postcode = r.postcode ∧
    (resetRow r).latitude = r.latitude ∧ (resetRow r).longitude = r.longitude ∧
    (resetRow r).last_scraped = r.last_scraped ∧
    (resetRow r).last_updated = r.last_updated ∧
    ((r.is_cluster_center = true ∨ r.cluster_id ≠ none) →
      (resetRow r).is_cluster_center = false ∧ (resetRow r).cluster_id = none ∧
      (resetRow r).cluster_postcodes = none ∧ (resetRow r).scrape_status = "pending" ∧
      (resetRow r).error_message = none) := by
  by_cases h : r.is_cluster_center = true ∨ r.cluster_id ≠ none <;> simp [resetRow, h]

/-- Witness for C10 at concrete rows: a never-clustered row is untouched, and
on a clustered row the columns outside the five listed ones survive. -/
theorem reset_frame_witness :
    resetRow (exRow 4 (some 1) (some 1)) = exRow 4 (some 1) (some 1) ∧
    (resetRow (exRowDirty 5 (some 1) none true (some 3) (some [1, 2]) "completed"
        (some "boom"))).cluster_id = none ∧
    (resetRow (exRowDirty 5 (some 1) none true (some 3) (some [1, 2]) "completed"
        (some "boom"))).last_updated = 3 :=
  ⟨(reset_frame (exRow 4 (some 1) (some 1))).1 (by decide),
    ((reset_frame (exRowDirty 5 (some 1) none true (some 3) (some [1, 2]) "completed"
        (some "boom"))).2.2.2.2.2.2.2 (by decide)).2.1,
    (reset_frame (exRowDirty 5 (some 1) none true (some 3) (some [1, 2]) "completed"
        (some "boom"))).2.2.2.2.2.2.1⟩

/-! ## Empty input -/

theorem numberedLocations_eq_nil {db : List (Row α)}
    (h : ∀ r ∈ db, ¬(r.latitude.isSome ∧ r.longitude.isSome)) :
    numberedLocations db = [] := by
  rw [numberedLocations, List.filterMap_eq_nil_iff]
  intro r hr
  have hr2 := h r hr
  cases hla : r.latitude <;> cases hlo : r.longitude <;> simp_all

/-- C7: when no row has both coordinates, the run returns zero clusters,
selects no cluster, and marks no row as a center. -/
theorem empty_input (covered : α → α → α → α → Bool) (now : Nat) (db : List (Row α))
    (h : ∀ r ∈ db, ¬(r.latitude.isSome ∧ r.longitude.isSome)) :
    (generateClusters covered now db).snd = 0 ∧
    optimizedClusters covered (numberedLocations (resetClusters db)) = [] ∧
    ∀ p ∈ (generateClusters covered now db).fst,
      p.is_cluster_center = false ∧ p.cluster_id = none := by
  have hgeo : numberedLocations (resetClusters db) = [] := by
    apply numberedLocations_eq_nil
    intro r hr
    rcases List.mem_map.1 hr with ⟨r0, hr0, rfl⟩
    simpa using h r0 hr0
  have hocs : optimizedClusters covered (numberedLocations (resetClusters db)) = [] := by
    rw [hgeo]
    rfl
  have hdb1 : (resetClusters db).map
      (applyCenterUpdate now (optimizedClusters covered (numberedLocations (resetClusters db))))
        = resetClusters db := by
    rw [hocs, show applyCenterUpdate now ([] : List (Selected α)) = fun p : Row α => p from
      funext fun p => @applyCenterUpdate_neg α [] p now rfl]
    simp
  refine ⟨?_, hocs, ?_⟩
  · show ((resetClusters db).filter _).length = 0
    rw [hocs]
    simp
  · show ∀ p ∈ List.map _ _, _
    rw [hdb1]
    intro p hp
    rcases List.mem_map.1 hp with ⟨q, hq, rfl⟩
    have hfind : (resetClusters db).find? (memberMatch q) = none := by
      rw [List.find?_eq_none]
      intro c hc
      rcases List.mem_map.1 hc with ⟨c0, _, rfl⟩
      simp [memberMatch, (resetRow_state c0).1]
    rw [memberUpdate_neg now hfind]
    rcases List.mem_map.1 hq with ⟨q0, _, rfl⟩
    exact resetRow_state q0

/-- Witness for C7: a table whose rows all lack a coordinate. -/
theorem empty_input_witness :
    (generateClusters (covSq 4) 9 dbNoGeo).snd = 0 ∧
    optimizedClusters (covSq 4) (numberedLocations (resetClusters dbNoGeo)) = [] ∧
    ∀ p ∈ (generateClusters (covSq 4) 9 dbNoGeo).fst,
      p.is_cluster_center = false ∧ p.cluster_id = none :=
  empty_input (covSq 4) 9 dbNoGeo (by decide)

/-! ## The next-cluster query -/

theorem optLE_refl (x : Option Nat) : optLE x x = true := by
  cases x <;> simp [optLE]

theorem optLE_total (x y : Option Nat) : optLE x y = true ∨ optLE y x = true := by
  cases x <;> cases y <;> simp [optLE] <;> omega

theorem optLE_trans {x y z : Option Nat} (h1 : optLE x y = true) (h2 : optLE y z = true) :
    optLE x z = true := by
  cases x <;> cases y <;> cases z <;> simp_all [optLE] <;> omega

instance : IsTotal (ClusterRow α) scrapeLE :=
  ⟨fun r c => optLE_total r.last_scraped c.last_scraped⟩

instance : IsTrans (ClusterRow α) scrapeLE :=
  ⟨fun _ _ _ h1 h2 => optLE_trans h1 h2⟩

theorem scrapeLE_refl (r : ClusterRow α) : scrapeLE r r :=
  optLE_refl r.last_scraped

/-- C9: the next-cluster query returns a row needing scraping whose
last-scraped key is minimal under the nulls-first, then ascending order, and
returns nothing exactly when no cluster needs scraping. -/
theorem getNextCluster_spec (cutoff : Nat) (db : List (ClusterRow α)) :
    (getNextCluster cutoff db = none ↔ ∀ r ∈ db, needsScrape cutoff r = false) ∧
    ∀ r, getNextCluster cutoff db = some r →
      r ∈ db ∧ needsScrape cutoff r = true ∧
        ∀ c ∈ db, needsScrape cutoff c = true → scrapeLE r c := by
  constructor
  · rw [getNextCluster, List.head?_eq_none_iff]
    constructor
    · intro hnil r hr
      have hperm := List.perm_insertionSort (@scrapeLE α) (db.filter (needsScrape cutoff))
      rw [hnil] at hperm
      have hfil : db.filter (needsScrape cutoff) = [] := hperm.symm.eq_nil
      rw [List.filter_eq_nil_iff] at hfil
      exact Bool.not_eq_true _ ▸ hfil r hr
    · intro hall
      have hfil : db.filter (needsScrape cutoff) = [] := by
        rw [List.filter_eq_nil_iff]
        intro r hr
        simp [hall r hr]
      rw [hfil]
      rfl
  · intro r hr
    rw [getNextCluster] at hr
    rcases hs : List.insertionSort (@scrapeLE α) (db.filter (needsScrape cutoff)) with
        _ | ⟨x, xs⟩
    · rw [hs] at hr
      cases hr
    · rw [hs] at hr
      have hrx : r = x := by
        simpa using hr.symm

      subst hrx
      have hmem : r ∈ db.filter (needsScrape cutoff) := by
        rw [← List.mem_insertionSort (@scrapeLE α), hs]
        exact List.mem_cons_self _ _
      have hsorted := List.sorted_insertionSort (@scrapeLE α) (db.filter (needsScrape cutoff))
      rw [hs] at hsorted
      refine ⟨(List.mem_filter.1 hmem).1, (List.mem_filter.1 hmem).2, ?_⟩
      intro c hc hneed
      have hcmem : c ∈ List.insertionSort (@scrapeLE α) (db.filter (needsScrape cutoff)) := by
        rw [List.mem_insertionSort]
        exact List.mem_filter.2 ⟨hc, hneed⟩
      rw [hs] at hcmem
      rcases List.mem_cons.1 hcmem with rfl | hcmem
      · exact scrapeLE_refl c
      · exact List.rel_of_sorted_cons hsorted c hcmem

/-- Witness for C9: on a concrete queue the never-scraped row is returned and
is minimal among the three rows needing scraping. -/
theorem getNextCluster_spec_witness :
    exCluster 2 none ∈ dbNext ∧ needsScrape 100 (exCluster 2 none) = true ∧
    ∀ c ∈ dbNext, needsScrape 100 c = true → scrapeLE (exCluster 2 none) c :=
  (getNextCluster_spec 100 dbNext).2 (exCluster 2 none) (by decide)

/-! ## The candidate coverage predicate -/

theorem haversine_self (la lo : ℝ) : haversine la lo la lo = 0 := by
  simp [haversine, radians]

theorem haversineCovered_eq_true_iff {radius la lo lb lob : ℝ} :
    haversineCovered radius la lo lb lob = true ↔ haversine la lo lb lob ≤ radius := by
  simp [haversineCovered]

theorem mem_coveredIds {covered : α → α → α → α → Bool} {geo : List (GeoRow α)}
    {a : GeoRow α} {x : Nat} :
    x ∈ coveredIds covered geo a ↔
      ∃ b ∈ geo, b.id = x ∧ covered a.latitude a.longitude b.latitude b.longitude = true := by
  unfold coveredIds
  rw [List.mem_insertionSort, List.mem_dedup, List.mem_map]
  constructor
  · rintro ⟨b, hb, rfl⟩
    exact ⟨b, (List.mem_filter.1 hb).1, rfl, (List.mem_filter.1 hb).2⟩
  · rintro ⟨b, hb, rfl, hcov⟩
    exact ⟨b, List.mem_filter.2 ⟨hb, hcov⟩, rfl⟩

/-- C2: membership in a candidate center's coverage set is exactly the
Haversine comparison `d(a,b) <= radius`; the comparison is inclusive, so a
point at exactly the radius is covered, and for a nonnegative radius every
point covers itself since `d(a,a) = 0`. -/
theorem candidate_coverage (radius : ℝ) (geo : List (GeoRow ℝ))
    (hids : (geo.map GeoRow.id).Nodup) (a b : GeoRow ℝ) (ha : a ∈ geo) (hb : b ∈ geo) :
    (b.id ∈ coveredIdsHaversine radius geo a ↔
        haversine a.latitude a.longitude b.latitude b.longitude ≤ radius) ∧
    (0 ≤ radius → a.id ∈ coveredIdsHaversine radius geo a) ∧
    b.id ∈ coveredIdsHaversine (haversine a.latitude a.longitude b.latitude b.longitude)
      geo a := by
  unfold coveredIdsHaversine
  refine ⟨⟨?_, ?_⟩, ?_, ?_⟩
  · intro hmem
    rcases mem_coveredIds.1 hmem with ⟨b2, hb2, hid, hcov⟩
    have hbb : b2 = b := List.inj_on_of_nodup_map hids hb2 hb hid
    rw [← hbb]
    exact haversineCovered_eq_true_iff.1 (hbb ▸ hcov)
  · intro hd
    exact mem_coveredIds.2 ⟨b, hb, rfl, haversineCovered_eq_true_iff.2 hd⟩
  · intro hrad
    refine mem_coveredIds.2 ⟨a, ha, rfl, haversineCovered_eq_true_iff.2 ?_⟩
    rw [haversine_self]
    exact hrad
  · exact mem_coveredIds.2 ⟨b, hb, rfl, haversineCovered_eq_true_iff.2 le_rfl⟩

/-- Witness for C2 on a concrete two-point table over the reals. -/
theorem candidate_coverage_witness :
    ((geoB.id ∈ coveredIdsHaversine 5 geoW geoA ↔
        haversine geoA.latitude geoA.longitude geoB.latitude geoB.longitude ≤ 5) ∧
      ((0 : ℝ) ≤ 5 → geoA.id ∈ coveredIdsHaversine 5 geoW geoA) ∧
      geoB.id ∈ coveredIdsHaversine
        (haversine geoA.latitude geoA.longitude geoB.latitude geoB.longitude) geoW geoA) ∧
    geoA.id ∈ coveredIdsHaversine 5 geoW geoA :=
  ⟨candidate_coverage 5 geoW (by decide) geoA geoB (List.mem_cons_self _ _)
      (List.mem_cons_of_mem _ (List.mem_cons_self _ _)),
    (candidate_coverage 5 geoW (by decide) geoA geoB (List.mem_cons_self _ _)
      (List.mem_cons_of_mem _ (List.mem_cons_self _ _))).2.1 (by norm_num)⟩

/-! ## The ORDER BY key and DISTINCT ON selection -/

theorem listLtB_irrefl : ∀ s : List Nat, listLtB s s = false
  | [] => rfl
  | a :: as => by simp [listLtB, listLtB_irrefl as]

theorem listLtB_asymm : ∀ {s t : List Nat}, listLtB s t = true → listLtB t s = false
  | [], [] => by simp [listLtB]
  | [], _ :: _ => fun _ => rfl
  | _ :: _, [] => by simp [listLtB]
  | a :: as, b :: bs => fun h => by
    rcases Nat.lt_trichotomy a b with hab | rfl | hab
    · simp [listLtB, hab, Nat.lt_asymm hab]
    · simp only [listLtB, lt_self_iff_false, if_false] at h ⊢
      exact listLtB_asymm h
    · simp [listLtB, hab, Nat.lt_asymm hab] at h

theorem listLtB_trichotomy : ∀ s t : List Nat, listLtB s t = true ∨ s = t ∨ listLtB t s = true
  | [], [] => Or.inr (Or.inl rfl)
  | [], _ :: _ => Or.inl rfl
  | _ :: _, [] => Or.inr (Or.inr rfl)
  | a :: as, b :: bs => by
    rcases Nat.lt_trichotomy a b with hab | rfl | hab
    · exact Or.inl (by simp [listLtB, hab])
    · rcases listLtB_trichotomy as bs with h | h | h
      · exact Or.inl (by simp [listLtB, h])
      · exact Or.inr (Or.inl (by rw [h]))
      · exact Or.inr (Or.inr (by simp [listLtB, h]))
    · exact Or.inr (Or.inr (by simp [listLtB, hab]))

theorem candLE_iff {c c' : Candidate α} (hc : candOk c) (hc' : candOk c') :
    candLE c c' ↔ listLtB c'.covered_postcodes c.covered_postcodes = false := by
  unfold candOk at hc hc'
  constructor
  · intro h
    rcases h with h | ⟨hsig, _⟩
    · exact listLtB_asymm h
    · rw [hsig]
      exact listLtB_irrefl _
  · intro h
    rcases listLtB_trichotomy c.covered_postcodes c'.covered_postcodes with h1 | h1 | h1
    · exact Or.inl h1
    · refine Or.inr ⟨h1, ?_⟩
      rw [hc, hc', h1]
    · rw [h1] at h
      cases h

theorem not_candLE {c c' : Candidate α} (hc : candOk c) (hc' : candOk c')
    (h : ¬candLE c c') : listLtB c'.covered_postcodes c.covered_postcodes = true := by
  cases hlt : listLtB c'.covered_postcodes c.covered_postcodes with
  | true => rfl
  | false => exact absurd ((candLE_iff hc hc').2 hlt) h

theorem mem_of_mem_distinctOnSig : ∀ {cs : List (Candidate α)} {seen : List (List Nat)}
    {c : Candidate α}, c ∈ distinctOnSig cs seen → c ∈ cs := by
  intro cs
  induction cs with
  | nil =>
    intro seen c h
    cases h
  | cons d cs ih =>
    intro seen c h
    unfold distinctOnSig at h
    split at h
    · exact List.mem_cons_of_mem _ (ih h)
    · rcases List.mem_cons.1 h with rfl | h2
      · exact List.mem_cons_self _ _
      · exact List.mem_cons_of_mem _ (ih h2)

theorem distinctOnSig_not_seen : ∀ {cs : List (Candidate α)} {seen : List (List Nat)}
    {c : Candidate α}, c ∈ distinctOnSig cs seen → c.covered_postcodes ∉ seen := by
  intro cs
  induction cs with
  | nil =>
    intro seen c h
    cases h
  | cons d cs ih =>
    intro seen c h
    unfold distinctOnSig at h
    split at h
    · exact ih h
    · rcases List.mem_cons.1 h with rfl | h2
      · next hd => exact hd
      · intro hmem
        exact ih h2 (List.mem_cons_of_mem _ hmem)

theorem distinctOnSig_sig_nodup : ∀ (cs : List (Candidate α)) (seen : List (List Nat)),
    ((distinctOnSig cs seen).map Candidate.covered_postcodes).Nodup := by
  intro cs
  induction cs with
  | nil =>
    intro seen
    simp [distinctOnSig]
  | cons d cs ih =>
    intro seen
    unfold distinctOnSig
    split
    · exact ih seen
    · rw [List.map_cons, List.nodup_cons]
      refine ⟨?_, ih _⟩
      intro hmem
      rcases List.mem_map.1 hmem with ⟨x, hx, hxs⟩
      exact distinctOnSig_not_seen hx (hxs ▸ List.mem_cons_self _ _)

theorem distinctOnSig_sig_mem : ∀ {cs : List (Candidate α)} {seen : List (List Nat)}
    {s : List Nat}, s ∈ cs.map Candidate.covered_postcodes → s ∉ seen →
      s ∈ (distinctOnSig cs seen).map Candidate.covered_postcodes := by
  intro cs
  induction cs with
  | nil =>
    intro seen s h _
    cases h
  | cons d cs ih =>
    intro seen s h hs
    rw [List.map_cons] at h
    unfold distinctOnSig
    split
    · next hd =>
      rcases List.mem_cons.1 h with rfl | h2
      · exact absurd hd hs
      · exact ih h2 hs
    · next hd =>
      rcases List.mem_cons.1 h with rfl | h2
      · rw [List.map_cons]
        exact List.mem_cons_self _ _
      · rw [List.map_cons]
        by_cases hsd : s = d.covered_postcodes
        · exact hsd ▸ List.mem_cons_self _ _
        · refine List.mem_cons_of_mem _ (ih h2 ?_)
          intro hmem
          rcases List.mem_cons.1 hmem with h3 | h3
          · exact hsd h3
          · exact hs h3

theorem distinctOnSig_find? : ∀ {cs : List (Candidate α)} {seen : List (List Nat)}
    {c : Candidate α}, c ∈ distinctOnSig cs seen →
      cs.find? (fun x => x.covered_postcodes == c.covered_postcodes) = some c := by
  intro cs
  induction cs with
  | nil =>
    intro seen c h
    cases h
  | cons d cs ih =>
    intro seen c h
    unfold distinctOnSig at h
    split at h
    · next hd =>
      have hcs : c.covered_postcodes ∉ seen := distinctOnSig_not_seen h
      have hne : ¬(d.covered_postcodes == c.covered_postcodes) = true := by
        intro hbeq
        exact hcs (eq_of_beq hbeq ▸ hd)
      rw [@List.find?_cons_of_neg _ (fun x => x.covered_postcodes == c.covered_postcodes)
        d cs hne]
      exact ih h
    · next hd =>
      rcases List.mem_cons.1 h with rfl | h2
      · exact List.find?_cons_of_pos _ (beq_self_eq_true _)
      · have hcs : c.covered_postcodes ∉ d.covered_postcodes :: seen :=
          distinctOnSig_not_seen h2
        have hne : ¬(d.covered_postcodes == c.covered_postcodes) = true := by
          intro hbeq
          exact hcs (eq_of_beq hbeq ▸ List.mem_cons_self _ _)
        rw [@List.find?_cons_of_neg _ (fun x => x.covered_postcodes == c.covered_postcodes)
          d cs hne]
        exact ih h2

/-! ## Numbering of selected clusters -/

theorem numberClusters_map_selCand : ∀ (n : Nat) (cs : List (Candidate α)),
    (numberClusters n cs).map selCand = cs
  | _, [] => rfl
  | n, c :: cs => by
    rw [numberClusters, List.map_cons, numberClusters_map_selCand (n + 1) cs]
    rfl

theorem mem_numberClusters_cluster_id_ge : ∀ {n : Nat} {cs : List (Candidate α)}
    {oc : Selected α}, oc ∈ numberClusters n cs → n ≤ oc.cluster_id := by
  intro n cs
  induction cs generalizing n with
  | nil =>
    intro oc h
    cases h
  | cons c cs ih =>
    intro oc h
    rcases List.mem_cons.1 h with rfl | h2
    · exact Nat.le_refl n
    · exact Nat.le_of_succ_le (ih h2)

theorem numberClusters_cluster_id_inj : ∀ {n : Nat} {cs : List (Candidate α)}
    {oc oc' : Selected α}, oc ∈ numberClusters n cs → oc' ∈ numberClusters n cs →
      oc.cluster_id = oc'.cluster_id → oc = oc' := by
  intro n cs
  induction cs generalizing n with
  | nil =>
    intro oc oc' h
    cases h
  | cons c cs ih =>
    intro oc oc' h h' heq
    rcases List.mem_cons.1 h with rfl | h2 <;> rcases List.mem_cons.1 h' with rfl | h2'
    · rfl
    · have h3 := mem_numberClusters_cluster_id_ge h2'
      have h4 : n = oc'.cluster_id := heq
      omega
    · have h3 := mem_numberClusters_cluster_id_ge h2
      have h4 : oc.cluster_id = n := heq
      omega
    · exact ih h2 h2' heq

theorem numberClusters_sig_inj : ∀ {n : Nat} {cs : List (Candidate α)},
    (cs.map Candidate.covered_postcodes).Nodup →
    ∀ {oc oc' : Selected α}, oc ∈ numberClusters n cs → oc' ∈ numberClusters n cs →
      oc.covered_postcodes = oc'.covered_postcodes → oc = oc' := by
  intro n cs
  induction cs generalizing n with
  | nil =>
    intro _ oc oc' h
    cases h
  | cons c cs ih =>
    intro hnd oc oc' h h' heq
    have hsig : ∀ {od : Selected α}, od ∈ numberClusters (n + 1) cs →
        od.covered_postcodes ∈ cs.map Candidate.covered_postcodes := by
      intro od hod
      have : selCand od ∈ cs := by
        have h3 := List.mem_map_of_mem selCand hod
        rwa [numberClusters_map_selCand] at h3
      exact List.mem_map_of_mem _ this
    rw [List.map_cons, List.nodup_cons] at hnd
    rcases List.mem_cons.1 h with rfl | h2 <;> rcases List.mem_cons.1 h' with rfl | h2'
    · rfl
    · have h3 := hsig h2'
      have h4 : c.covered_postcodes = oc'.covered_postcodes := heq
      rw [← h4] at h3
      exact absurd h3 hnd.1
    · have h3 := hsig h2
      have h4 : oc.covered_postcodes = c.covered_postcodes := heq
      rw [h4] at h3
      exact absurd h3 hnd.1
    · exact ih hnd.2 h2 h2' heq

/-! ## Candidates -/

theorem potentialClusters_candOk {covered : α → α → α → α → Bool} {geo : List (GeoRow α)} :
    ∀ c ∈ potentialClusters covered geo, candOk c := by
  intro c hc
  rcases List.mem_map.1 hc with ⟨a, _, rfl⟩
  rfl

theorem mem_ocs_char {covered : α → α → α → α → Bool} {geo : List (GeoRow α)}
    {oc : Selected α} (h : oc ∈ optimizedClusters covered geo) :
    ∃ a ∈ geo, oc.center_id = a.id ∧ oc.latitude = a.latitude ∧ oc.longitude = a.longitude ∧
      oc.covered_postcodes = coveredIds covered geo a := by
  have h1 : selCand oc ∈
      distinctOnSig (List.insertionSort candLE (potentialClusters covered geo)) [] := by
    have h2 := List.mem_map_of_mem selCand h
    rwa [optimizedClusters, numberClusters_map_selCand] at h2
  have h3 : selCand oc ∈ potentialClusters covered geo :=
    (List.mem_insertionSort _).1 (mem_of_mem_distinctOnSig h1)
  rcases List.mem_map.1 h3 with ⟨a, ha, heq⟩
  exact ⟨a, ha, (congrArg Candidate.center_id heq).symm,
    (congrArg Candidate.latitude heq).symm, (congrArg Candidate.longitude heq).symm,
    (congrArg Candidate.covered_postcodes heq).symm⟩

theorem sig_has_representative {covered : α → α → α → α → Bool} {geo : List (GeoRow α)}
    {c : Candidate α} (hc : c ∈ potentialClusters covered geo) :
    ∃ oc ∈ optimizedClusters covered geo, oc.covered_postcodes = c.covered_postcodes := by
  have h1 : c.covered_postcodes ∈
      (List.insertionSort candLE (potentialClusters covered geo)).map
        Candidate.covered_postcodes :=
    List.mem_map_of_mem _ ((List.mem_insertionSort _).2 hc)
  have h2 := distinctOnSig_sig_mem h1 (List.not_mem_nil _)
  rcases List.mem_map.1 h2 with ⟨d, hd, hds⟩
  have h3 : d ∈ (numberClusters 1
      (distinctOnSig (List.insertionSort candLE (potentialClusters covered geo)) [])).map
        selCand := by
    rw [numberClusters_map_selCand]
    exact hd
  rcases List.mem_map.1 h3 with ⟨oc, hoc, hocd⟩
  exact ⟨oc, hoc, (congrArg Candidate.covered_postcodes hocd).trans hds⟩

theorem ocs_sig_inj {covered : α → α → α → α → Bool} {geo : List (GeoRow α)} :
    ∀ oc ∈ optimizedClusters covered geo, ∀ oc' ∈ optimizedClusters covered geo,
      oc.covered_postcodes = oc'.covered_postcodes → oc = oc' := by
  intro oc h oc' h' heq
  exact numberClusters_sig_inj (distinctOnSig_sig_nodup _ _) h h' heq

/-! ## Stability of the embedded sort on signature classes -/

theorem insertionSort_find?_sig {s : List Nat} :
    ∀ {l : List (Candidate α)}, (∀ c ∈ l, candOk c) →
      (List.insertionSort candLE l).find? (fun x => x.covered_postcodes == s) =
        l.find? (fun x => x.covered_postcodes == s) := by
  intro l
  induction l with
  | nil =>
    intro _
    rfl
  | cons a l ih =>
    intro hwf
    have hwa : candOk a := hwf a (List.mem_cons_self _ _)
    have hwl : ∀ c ∈ l, candOk c := fun c hc => hwf c (List.mem_cons_of_mem _ hc)
    have hwm : ∀ c ∈ List.insertionSort candLE l, candOk c := fun c hc =>
      hwl c ((List.mem_insertionSort candLE).1 hc)
    rw [List.insertionSort, List.orderedInsert_eq_take_drop, List.find?_append]
    by_cases hs : (a.covered_postcodes == s) = true
    · have htake : (List.takeWhile (fun b => decide ¬candLE a b)
          (List.insertionSort candLE l)).find? (fun x => x.covered_postcodes == s) = none := by
        rw [List.find?_eq_none]
        intro x hx hxs
        have hnot : ¬candLE a x := of_decide_eq_true
          (@List.mem_takeWhile_imp _ (fun b => decide ¬candLE a b)
            (List.insertionSort candLE l) x hx)
        have hlt : listLtB x.covered_postcodes a.covered_postcodes = true :=
          not_candLE hwa (hwm x (List.takeWhile_sublist _ |>.mem hx)) hnot
        rw [eq_of_beq hxs, ← eq_of_beq hs] at hlt
        rw [listLtB_irrefl] at hlt
        cases hlt
      rw [htake, Option.none_or,
        @List.find?_cons_of_pos _ (fun x => x.covered_postcodes == s) a
          (List.dropWhile (fun b => decide ¬candLE a b) (List.insertionSort candLE l)) hs,
        @List.find?_cons_of_pos _ (fun x => x.covered_postcodes == s) a l hs]
    · rw [@List.find?_cons_of_neg _ (fun x => x.covered_postcodes == s) a
          (List.dropWhile (fun b => decide ¬candLE a b) (List.insertionSort candLE l)) hs,
        @List.find?_cons_of_neg _ (fun x => x.covered_postcodes == s) a l hs,
        ← List.find?_append, List.takeWhile_append_dropWhile]
      exact ih hwl

/-! ## Table-level helpers -/

theorem mem_numberedLocations {db : List (Row α)} {b : GeoRow α} :
    b ∈ numberedLocations db ↔
      ∃ r ∈ db, r.id = b.id ∧ r.postcode = b.postcode ∧
        r.latitude = some b.latitude ∧ r.longitude = some b.longitude := by
  rw [numberedLocations, List.mem_filterMap]
  constructor
  · rintro ⟨r, hr, hf⟩
    refine ⟨r, hr, ?_⟩
    rcases hla : r.latitude with _ | la <;> rcases hlo : r.longitude with _ | lo <;>
        rw [hla, hlo] at hf
    · cases hf
    · cases hf
    · cases hf
    · injection hf with hf
      subst hf
      exact ⟨rfl, rfl, rfl, rfl⟩
  · rintro ⟨r, hr, hid, hpc, hla, hlo⟩
    refine ⟨r, hr, ?_⟩
    rw [hla, hlo, hid, hpc]

theorem numberedLocations_map_id_sublist (db : List (Row α)) :
    List.Sublist ((numberedLocations db).map GeoRow.id) (db.map Row.id) := by
  induction db with
  | nil => exact List.Sublist.refl _
  | cons r db ih =>
    unfold numberedLocations at ih ⊢
    rw [List.filterMap_cons, List.map_cons]
    rcases hla : r.latitude with _ | la <;> rcases hlo : r.longitude with _ | lo
    · exact List.Sublist.cons _ ih
    · exact List.Sublist.cons _ ih
    · exact List.Sublist.cons _ ih
    · exact List.Sublist.cons₂ _ ih

theorem numberedLocations_ids_nodup {db : List (Row α)} (h : (db.map Row.id).Nodup) :
    ((numberedLocations db).map GeoRow.id).Nodup :=
  List.Nodup.sublist (numberedLocations_map_id_sublist db) h

theorem resetClusters_map_id (db : List (Row α)) :
    (resetClusters db).map Row.id = db.map Row.id := by
  unfold resetClusters
  rw [List.map_map]
  exact List.map_congr_left fun r _ => resetRow_id r

theorem db1Of_map_id (covered : α → α → α → α → Bool) (now : Nat) (db : List (Row α)) :
    (db1Of covered now db).map Row.id = db.map Row.id := by
  unfold db1Of
  rw [List.map_map]
  calc ((resetClusters db).map fun r => (applyCenterUpdate now (ocsOf covered db) r).id)
      = (resetClusters db).map Row.id :=
        List.map_congr_left fun r _ => applyCenterUpdate_id _ _ r
    _ = db.map Row.id := resetClusters_map_id db

theorem generateClusters_fst (covered : α → α → α → α → Bool) (now : Nat)
    (db : List (Row α)) :
    (generateClusters covered now db).fst =
      (db1Of covered now db).map (memberUpdate now (db1Of covered now db)) := rfl

theorem generateClusters_snd (covered : α → α → α → α → Bool) (now : Nat)
    (db : List (Row α)) :
    (generateClusters covered now db).snd =
      ((resetClusters db).filter fun p =>
        (ocsOf covered db).any fun oc => oc.center_id == p.id).length := rfl

theorem final_map_id (covered : α → α → α → α → Bool) (now : Nat) (db : List (Row α)) :
    (generateClusters covered now db).fst.map Row.id = db.map Row.id := by
  rw [generateClusters_fst, List.map_map]
  calc ((db1Of covered now db).map fun r => (memberUpdate now (db1Of covered now db) r).id)
      = (db1Of covered now db).map Row.id :=
        List.map_congr_left fun r _ => memberUpdate_id _ _ r
    _ = db.map Row.id := db1Of_map_id covered now db

theorem resetClusters_center_state {db : List (Row α)} {q : Row α}
    (hq : q ∈ resetClusters db) :
    q.is_cluster_center = false ∧ q.cluster_id = none := by
  rcases List.mem_map.1 hq with ⟨r, _, rfl⟩
  exact resetRow_state r

/-- Every final row whose `is_cluster_center` is set carries the data of
exactly the selected cluster whose center it is. -/
theorem final_center_char {covered : α → α → α → α → Bool} {now : Nat} {db : List (Row α)}
    {p : Row α} (hp : p ∈ (generateClusters covered now db).fst)
    (hc : p.is_cluster_center = true) :
    ∃ oc ∈ ocsOf covered db,
      oc.center_id = p.id ∧ p.cluster_postcodes = some oc.covered_postcodes := by
  rw [generateClusters_fst] at hp
  rcases List.mem_map.1 hp with ⟨q, hq, rfl⟩
  rw [memberUpdate_center] at hc
  rw [memberUpdate_id, memberUpdate_postcodes]
  unfold db1Of at hq
  rcases List.mem_map.1 hq with ⟨q0, hq0, rfl⟩
  rcases hfind : (ocsOf covered db).find? (fun oc => oc.center_id == q0.id) with _ | oc
  · rw [applyCenterUpdate_neg now hfind] at hc
    rw [(resetClusters_center_state hq0).1] at hc
    cases hc
  · rw [applyCenterUpdate_pos now hfind] at hc ⊢
    have hbeq := List.find?_some hfind
    exact ⟨oc, List.mem_of_find?_eq_some hfind, eq_of_beq hbeq, rfl⟩

/-- C3: no two selected clusters share a covered-id set, neither among the
selected rows of the query nor among the center rows of the final table, and
every candidate signature is represented by exactly one selected cluster. -/
theorem signature_dedup (covered : α → α → α → α → Bool) (now : Nat) (db : List (Row α))
    (hids : (db.map Row.id).Nodup) :
    (∀ p ∈ (generateClusters covered now db).fst,
      ∀ q ∈ (generateClusters covered now db).fst,
        p.is_cluster_center = true → q.is_cluster_center = true →
        p.cluster_postcodes = q.cluster_postcodes → p = q) ∧
    (∀ oc ∈ ocsOf covered db, ∀ oc' ∈ ocsOf covered db,
        oc.covered_postcodes = oc'.covered_postcodes → oc = oc') ∧
    ∀ c ∈ potentialClusters covered (geoOf db),
      ∃ oc ∈ ocsOf covered db, oc.covered_postcodes = c.covered_postcodes := by
  refine ⟨?_, fun oc h oc' h' => ocs_sig_inj oc h oc' h', fun c hc => sig_has_representative hc⟩
  intro p hp q hq hpc hqc hpq
  rcases final_center_char hp hpc with ⟨oc, hoc, hocid, hocps⟩
  rcases final_center_char hq hqc with ⟨oc', hoc', hocid', hocps'⟩
  have hoq : oc = oc' := by
    apply ocs_sig_inj oc hoc oc' hoc'
    have h1 : some oc.covered_postcodes = some oc'.covered_postcodes := by
      rw [← hocps, ← hocps', hpq]
    injection h1
  have hsameid : p.id = q.id := by rw [← hocid, ← hocid', hoq]
  have hnd : ((generateClusters covered now db).fst.map Row.id).Nodup := by
    rw [final_map_id]
    exact hids
  exact List.inj_on_of_nodup_map hnd hp hq hsameid

/-- Witness for C3 on a concrete three-point run: the signature of each
candidate is represented among the selected clusters. -/
theorem signature_dedup_witness :
    ∃ oc ∈ ocsOf (covSq 4) dbScenario,
      oc.covered_postcodes =
        (Candidate.mk 1 "P" 0 0 [1, 2] 2 : Candidate Int).covered_postcodes :=
  (signature_dedup (covSq 4) 99 dbScenario (by decide)).2.2
    (Candidate.mk 1 "P" 0 0 [1, 2] 2) (by decide)

/-- C5 as corrected: within a signature class every candidate has the same
coverage count (the class size), and the representative the embedded
`DISTINCT ON` keeps is the first candidate of the class in row-scan order. -/
theorem representative_tiebreak (covered : α → α → α → α → Bool) (geo : List (GeoRow α)) :
    (∀ c ∈ potentialClusters covered geo, ∀ c' ∈ potentialClusters covered geo,
        c.covered_postcodes = c'.covered_postcodes → c.coverage_count = c'.coverage_count) ∧
    ∀ oc ∈ optimizedClusters covered geo,
      (potentialClusters covered geo).find?
        (fun c => c.covered_postcodes == oc.covered_postcodes) = some (selCand oc) := by
  constructor
  · intro c hc c' hc' heq
    have h1 := potentialClusters_candOk c hc
    have h2 := potentialClusters_candOk c' hc'
    unfold candOk at h1 h2
    rw [h1, h2, heq]
  · intro oc hoc
    have h1 : selCand oc ∈
        distinctOnSig (List.insertionSort candLE (potentialClusters covered geo)) [] := by
      have h2 := List.mem_map_of_mem selCand hoc
      rwa [optimizedClusters, numberClusters_map_selCand] at h2
    have h3 := distinctOnSig_find? h1
    rw [insertionSort_find?_sig potentialClusters_candOk] at h3
    exact h3

/-- Counterexample to C5 as stated: two candidate centers at the same location
share the signature `[1, 2]` and tie on coverage count, and the selection keeps
the one with id 2 because its row comes first, not the one with the lowest id. -/
theorem representative_tiebreak_counterexample :
    (potentialClusters (covSq 4) (geoOf dbTieOrder)).map
        (fun c => (c.center_id, c.covered_postcodes, c.coverage_count)) =
      [(2, [1, 2], 2), (1, [1, 2], 2)] ∧
    (ocsOf (covSq 4) dbTieOrder).map Selected.center_id = [2] := by
  decide

/-- Witness for the corrected C5 on the same concrete run: the kept
representative is the first candidate of its signature class in row order. -/
theorem representative_tiebreak_witness :
    (potentialClusters (covSq 4) (geoOf dbTieOrder)).find?
      (fun c => c.covered_postcodes ==
        (Selected.mk 2 "P" 0 0 [1, 2] 2 1 : Selected Int).covered_postcodes) =
      some (selCand (Selected.mk 2 "P" 0 0 [1, 2] 2 1)) :=
  (representative_tiebreak (covSq 4) (geoOf dbTieOrder)).2
    (Selected.mk 2 "P" 0 0 [1, 2] 2 1) (by decide)

/-! ## Coverage totality -/

theorem coverage_totality_core (covered : α → α → α → α → Bool) (now : Nat)
    (db : List (Row α)) (hids : (db.map Row.id).Nodup)
    (hrefl : ∀ la lo, covered la lo la lo = true) :
    ∀ p ∈ (generateClusters covered now db).fst, ∀ la lo,
      p.latitude = some la → p.longitude = some lo →
      ∃ oc ∈ ocsOf covered db,
        p.cluster_id = some oc.cluster_id ∧
        p.id ∈ oc.covered_postcodes ∧
        covered oc.latitude oc.longitude la lo = true := by
  have hrids : ((resetClusters db).map Row.id).Nodup := by
    rw [resetClusters_map_id]
    exact hids
  have hgids : ((geoOf db).map GeoRow.id).Nodup := numberedLocations_ids_nodup hrids
  intro p hp la lo hla hlo
  rw [generateClusters_fst] at hp
  rcases List.mem_map.1 hp with ⟨q, hq, rfl⟩
  have hq' := hq
  unfold db1Of at hq'
  rcases List.mem_map.1 hq' with ⟨q0, hq0, rfl⟩
  simp only [memberUpdate_latitude, memberUpdate_longitude, applyCenterUpdate_latitude,
    applyCenterUpdate_longitude] at hla hlo
  have hg : (⟨q0.id, q0.postcode, la, lo⟩ : GeoRow α) ∈ geoOf db :=
    mem_numberedLocations.2 ⟨q0, hq0, rfl, rfl, hla, hlo⟩
  have hself : q0.id ∈ coveredIds covered (geoOf db) ⟨q0.id, q0.postcode, la, lo⟩ :=
    mem_coveredIds.2 ⟨⟨q0.id, q0.postcode, la, lo⟩, hg, rfl, hrefl la lo⟩
  have hcand : (⟨q0.id, q0.postcode, la, lo,
      coveredIds covered (geoOf db) ⟨q0.id, q0.postcode, la, lo⟩,
      (coveredIds covered (geoOf db) ⟨q0.id, q0.postcode, la, lo⟩).length⟩ : Candidate α) ∈
      potentialClusters covered (geoOf db) := List.mem_map_of_mem _ hg
  rcases sig_has_representative hcand with ⟨ocr, hocr, hocrsig⟩
  have hcovgen : ∀ oc ∈ ocsOf covered db, q0.id ∈ oc.covered_postcodes →
      covered oc.latitude oc.longitude la lo = true := by
    intro oc hoc hmem
    rcases mem_ocs_char hoc with ⟨a, ha, _, halat, halon, hacov⟩
    rw [hacov] at hmem
    rcases mem_coveredIds.1 hmem with ⟨b, hb, hbid, hbcov⟩
    have hbg : b = (⟨q0.id, q0.postcode, la, lo⟩ : GeoRow α) :=
      List.inj_on_of_nodup_map hgids hb hg hbid
    rw [halat, halon]
    rw [hbg] at hbcov
    exact hbcov
  rcases hfind : (db1Of covered now db).find?
      (memberMatch (applyCenterUpdate now (ocsOf covered db) q0)) with _ | c
  · rw [memberUpdate_neg now hfind]
    by_cases hcid : ocr.center_id = q0.id
    · have hsome : ((ocsOf covered db).find? (fun oc => oc.center_id == q0.id)).isSome := by
        rw [List.find?_isSome]
        refine ⟨ocr, hocr, ?_⟩
        rw [hcid]
        exact beq_self_eq_true _
      rcases Option.isSome_iff_exists.1 hsome with ⟨oc2, hoc2⟩
      have hbeq := List.find?_some hoc2
      have hoc2mem := List.mem_of_find?_eq_some hoc2
      have hoc2cid : oc2.center_id = q0.id := eq_of_beq hbeq
      rw [applyCenterUpdate_pos now hoc2]
      have hmemoc2 : q0.id ∈ oc2.covered_postcodes := by
        rcases mem_ocs_char hoc2mem with ⟨a2, ha2, ha2cid, _, _, ha2cov⟩
        have ha2g : a2 = (⟨q0.id, q0.postcode, la, lo⟩ : GeoRow α) :=
          List.inj_on_of_nodup_map hgids ha2 hg (by rw [← ha2cid, hoc2cid])
        rw [ha2cov, ha2g]
        exact hself
      exact ⟨oc2, hoc2mem, rfl, hmemoc2, hcovgen oc2 hoc2mem hmemoc2⟩
    · exfalso
      rcases mem_ocs_char hocr with ⟨ar, har, harcid, _, _, harcov⟩
      rcases mem_numberedLocations.1 har with ⟨rr, hrr, hrrid, _, _, _⟩
      have hrow : applyCenterUpdate now (ocsOf covered db) rr ∈ db1Of covered now db := by
        unfold db1Of
        exact List.mem_map_of_mem _ hrr
      have hsome : ((ocsOf covered db).find? (fun oc => oc.center_id == rr.id)).isSome := by
        rw [List.find?_isSome]
        refine ⟨ocr, hocr, ?_⟩
        rw [hrrid, ← harcid]
        exact beq_self_eq_true _
      rcases Option.isSome_iff_exists.1 hsome with ⟨oc', hoc'⟩
      have hbeq' := List.find?_some hoc'
      have hoc'cid : oc'.center_id = rr.id := eq_of_beq hbeq'
      have hoc'mem := List.mem_of_find?_eq_some hoc'
      rcases mem_ocs_char hoc'mem with ⟨a', ha', ha'cid, _, _, ha'cov⟩
      have ha'ar : a' = ar :=
        List.inj_on_of_nodup_map hgids ha' har (by rw [← ha'cid, hoc'cid, hrrid])
      have hq0in : q0.id ∈ oc'.covered_postcodes := by
        rw [ha'cov, ha'ar, ← harcov, hocrsig]
        exact hself
      have hcmatch : memberMatch (applyCenterUpdate now (ocsOf covered db) q0)
          (applyCenterUpdate now (ocsOf covered db) rr) = true := by
        rw [applyCenterUpdate_pos now hoc']
        unfold memberMatch
        simp only [applyCenterUpdate_id, Bool.and_eq_true, bne_iff_ne]
        refine ⟨⟨trivial, ?_⟩, ?_⟩
        · show (List.contains oc'.covered_postcodes q0.id) = true
          rw [List.contains_iff_exists_mem_beq]
          exact ⟨q0.id, hq0in, beq_self_eq_true _⟩
        · show rr.id ≠ q0.id
          rw [hrrid, ← harcid]
          exact hcid
      exact (List.find?_eq_none.1 hfind _ hrow) hcmatch
  · rw [memberUpdate_pos now hfind]
    have hcmem := List.mem_of_find?_eq_some hfind
    have hcmatch := List.find?_some hfind
    have hcmem' := hcmem
    unfold db1Of at hcmem'
    rcases List.mem_map.1 hcmem' with ⟨c0, hc0, rfl⟩
    unfold memberMatch at hcmatch
    simp only [Bool.and_eq_true, bne_iff_ne] at hcmatch
    rcases hfind2 : (ocsOf covered db).find? (fun oc => oc.center_id == c0.id) with _ | oc'
    · rw [applyCenterUpdate_neg now hfind2] at hcmatch
      rw [(resetClusters_center_state hc0).1] at hcmatch
      exact absurd hcmatch.1.1 (by simp)
    · have hoc'mem := List.mem_of_find?_eq_some hfind2
      obtain ⟨⟨hcen, hcont⟩, hne⟩ := hcmatch
      rw [applyCenterUpdate_pos now hfind2] at hcont
      simp only [applyCenterUpdate_id] at hcont
      have hcont' : oc'.covered_postcodes.contains q0.id = true := hcont
      have hq0in : q0.id ∈ oc'.covered_postcodes := by
        rw [List.contains_iff_exists_mem_beq] at hcont'
        rcases hcont' with ⟨x, hx, hxbeq⟩
        rw [eq_of_beq hxbeq]
        exact hx
      refine ⟨oc', hoc'mem, ?_, ?_, hcovgen oc' hoc'mem hq0in⟩
      · show (applyCenterUpdate now (ocsOf covered db) c0).cluster_id = some oc'.cluster_id
        rw [applyCenterUpdate_pos now hfind2]
      · simp only [applyCenterUpdate_id]
        exact hq0in

theorem ocs_cluster_id_inj {covered : α → α → α → α → Bool} {geo : List (GeoRow α)} :
    ∀ oc ∈ optimizedClusters covered geo, ∀ oc' ∈ optimizedClusters covered geo,
      oc'.cluster_id = oc.cluster_id → oc' = oc := by
  intro oc h oc' h' heq
  exact numberClusters_cluster_id_inj h' h heq

/-- C1: after a Haversine clustering run at a nonnegative radius over a table
with distinct ids, every row with non-null latitude and longitude carries the
cluster id of exactly one selected cluster, is a member of that cluster's
covered-id set, and its Haversine distance to that cluster's center is at most
the radius. -/
theorem coverage_totality (radius : ℝ) (now : Nat) (db : List (Row ℝ))
    (hids : (db.map Row.id).Nodup) (hrad : 0 ≤ radius) :
    ∀ p ∈ (generateClustersHaversine radius now db).fst, ∀ la lo,
      p.latitude = some la → p.longitude = some lo →
      ∃ oc ∈ ocsOf (haversineCovered radius) db,
        p.cluster_id = some oc.cluster_id ∧
        (∀ oc' ∈ ocsOf (haversineCovered radius) db,
          oc'.cluster_id = oc.cluster_id → oc' = oc) ∧
        p.id ∈ oc.covered_postcodes ∧
        haversine oc.latitude oc.longitude la lo ≤ radius := by
  have hrefl : ∀ la lo : ℝ, haversineCovered radius la lo la lo = true := by
    intro la lo
    rw [haversineCovered_eq_true_iff, haversine_self]
    exact hrad
  intro p hp la lo hla hlo
  rcases coverage_totality_core (haversineCovered radius) now db hids hrefl p hp la lo hla hlo
    with ⟨oc, hoc, hcid, hmem, hcov⟩
  refine ⟨oc, hoc, hcid, ?_, hmem, haversineCovered_eq_true_iff.1 hcov⟩
  intro oc' hoc' h
  exact ocs_cluster_id_inj oc hoc oc' hoc' h

theorem haversineCovered_five_self : haversineCovered (5 : ℝ) 0 0 0 0 = true := by
  rw [haversineCovered_eq_true_iff, haversine_self]
  norm_num

theorem dbR_run_fst : (generateClustersHaversine 5 0 dbR).fst = [rowR1run] := by
  simp only [generateClustersHaversine, generateClusters, dbR, rowR1, resetClusters,
    List.map_cons, List.map_nil, resetRow, numberedLocations, List.filterMap_cons,
    List.filterMap_nil, coveredIds, potentialClusters, optimizedClusters, distinctOnSig,
    numberClusters, applyCenterUpdate, memberUpdate, memberMatch, haversineCovered_five_self,
    List.insertionSort, List.orderedInsert, List.filter_cons, List.filter_nil, candLE,
    listLtB, rowR1run, List.find?, List.dedup_cons_of_not_mem, List.dedup_nil]
  norm_num
  simp [List.filter_cons, haversineCovered_five_self, List.insertionSort, List.orderedInsert,
    List.dedup_cons_of_not_mem]

/-- Witness for C1: a one-row real-coordinate table run at radius 5. -/
theorem coverage_totality_witness :
    ∃ oc ∈ ocsOf (haversineCovered 5) dbR,
      rowR1run.cluster_id = some oc.cluster_id ∧
      (∀ oc' ∈ ocsOf (haversineCovered 5) dbR, oc'.cluster_id = oc.cluster_id → oc' = oc) ∧
      rowR1run.id ∈ oc.covered_postcodes ∧
      haversine oc.latitude oc.longitude 0 0 ≤ 5 := by
  have hmem : rowR1run ∈ (generateClustersHaversine 5 0 dbR).fst := by
    rw [dbR_run_fst]
    exact List.mem_cons_self _ _
  exact coverage_totality 5 0 dbR (by decide) (by norm_num) rowR1run hmem 0 0 rfl rfl

/-! ## Assignment of multiply-covered points -/

theorem memberMatch_memberUpdate (p x : Row α) (now : Nat) (l : List (Row α)) :
    memberMatch p (memberUpdate now l x) = memberMatch p x := by
  unfold memberMatch
  rw [memberUpdate_center, memberUpdate_postcodes, memberUpdate_id]

theorem memberMatch_congr_left {p p' : Row α} (h : p.id = p'.id) (x : Row α) :
    memberMatch p x = memberMatch p' x := by
  unfold memberMatch
  rw [h]

theorem final_find?_eq (covered : α → α → α → α → Bool) (now : Nat) (db : List (Row α))
    (p : Row α) :
    (generateClusters covered now db).fst.find? (memberMatch p) =
      ((db1Of covered now db).find? (memberMatch p)).map
        (memberUpdate now (db1Of covered now db)) := by
  rw [generateClusters_fst, List.find?_map]
  rw [show (memberMatch p ∘ memberUpdate now (db1Of covered now db)) = memberMatch p from
    funext fun x => memberMatch_memberUpdate p x now _]

/-- C4 as corrected: a row claimed by any selected cluster other than its own
is assigned the cluster of the first center row in table-scan order whose
covered set contains it (the member `UPDATE` uses its first matching join
row, not the cluster that is first in selection order); a center row claimed
by no other cluster keeps its own cluster id from the center-marking step. -/
theorem multi_coverage_assignment (covered : α → α → α → α → Bool) (now : Nat)
    (db : List (Row α)) :
    (∀ p ∈ (generateClusters covered now db).fst, ∀ c,
      (generateClusters covered now db).fst.find? (memberMatch p) = some c →
        ∃ oc ∈ ocsOf covered db,
          c.cluster_postcodes = some oc.covered_postcodes ∧
          p.id ∈ oc.covered_postcodes ∧ p.cluster_id = some oc.cluster_id) ∧
    ∀ p ∈ (generateClusters covered now db).fst,
      (generateClusters covered now db).fst.find? (memberMatch p) = none →
      p.is_cluster_center = true →
      ∃ oc ∈ ocsOf covered db, oc.center_id = p.id ∧ p.cluster_id = some oc.cluster_id := by
  constructor
  · intro p hp c hfc
    rw [final_find?_eq] at hfc
    rcases Option.map_eq_some'.1 hfc with ⟨c1, hc1find, rfl⟩
    rw [generateClusters_fst] at hp
    rcases List.mem_map.1 hp with ⟨p1, hp1, rfl⟩
    have hpred : memberMatch (memberUpdate now (db1Of covered now db) p1) = memberMatch p1 :=
      funext fun x => memberMatch_congr_left (memberUpdate_id now _ p1) x
    rw [hpred] at hc1find
    have hmatch := List.find?_some hc1find
    have hc1mem := List.mem_of_find?_eq_some hc1find
    have hc1mem' := hc1mem
    unfold db1Of at hc1mem'
    rcases List.mem_map.1 hc1mem' with ⟨c0, hc0, rfl⟩
    unfold memberMatch at hmatch
    simp only [Bool.and_eq_true, bne_iff_ne] at hmatch
    rcases hfind2 : (ocsOf covered db).find? (fun oc => oc.center_id == c0.id) with _ | oc
    · rw [applyCenterUpdate_neg now hfind2] at hmatch
      rw [(resetClusters_center_state hc0).1] at hmatch
      exact absurd hmatch.1.1 (by simp)
    · have hocmem := List.mem_of_find?_eq_some hfind2
      obtain ⟨⟨hcen, hcont⟩, hne⟩ := hmatch
      rw [applyCenterUpdate_pos now hfind2] at hcont
      have hcont' : oc.covered_postcodes.contains p1.id = true := hcont
      have hpin : p1.id ∈ oc.covered_postcodes := by
        rw [List.contains_iff_exists_mem_beq] at hcont'
        rcases hcont' with ⟨x, hx, hxbeq⟩
        rw [eq_of_beq hxbeq]
        exact hx
      refine ⟨oc, hocmem, ?_, ?_, ?_⟩
      · rw [memberUpdate_postcodes]
        rw [applyCenterUpdate_pos now hfind2]
      · rw [memberUpdate_id]
        exact hpin
      · rw [memberUpdate_pos now hc1find]
        show (applyCenterUpdate now (ocsOf covered db) c0).cluster_id = some oc.cluster_id
        rw [applyCenterUpdate_pos now hfind2]
  · intro p hp hnone hcen
    rw [final_find?_eq] at hnone
    rcases Option.map_eq_none'.1 hnone with hnone1
    rw [generateClusters_fst] at hp
    rcases List.mem_map.1 hp with ⟨p1, hp1, rfl⟩
    have hpred : memberMatch (memberUpdate now (db1Of covered now db) p1) = memberMatch p1 :=
      funext fun x => memberMatch_congr_left (memberUpdate_id now _ p1) x
    rw [hpred] at hnone1
    rw [memberUpdate_neg now hnone1] at hcen ⊢
    have hp1' := hp1
    unfold db1Of at hp1'
    rcases List.mem_map.1 hp1' with ⟨q0, hq0, rfl⟩
    rcases hfind2 : (ocsOf covered db).find? (fun oc => oc.center_id == q0.id) with _ | oc
    · rw [applyCenterUpdate_neg now hfind2] at hcen
      rw [(resetClusters_center_state hq0).1] at hcen
      cases hcen
    · have hocmem := List.mem_of_find?_eq_some hfind2
      have hbeq := List.find?_some hfind2
      rw [applyCenterUpdate_pos now hfind2]
      exact ⟨oc, hocmem, eq_of_beq hbeq, rfl⟩

/-- Counterexample to C4 as stated: in `dbOverlap` the point with id 2 lies in
the covered sets of all three selected clusters, whose step-4 selection order
is the cluster-id order 1, 2, 3; the run assigns it cluster 3, not the
first-in-selection-order covering cluster 1. -/
theorem multi_coverage_counterexample :
    (ocsOf (covSq 4) dbOverlap).map (fun oc => (oc.cluster_id, oc.covered_postcodes)) =
      [(1, [1, 2]), (2, [1, 2, 3]), (3, [2, 3])] ∧
    ((generateClusters (covSq 4) 99 dbOverlap).fst.find? (fun r => r.id == 2)).map
      (fun r => r.cluster_id) = some (some 3) := by
  decide

/-- Witness for the corrected C4 on the same concrete run: the row with id 2 is
claimed first by the center row with id 3, and is assigned that center's
cluster 3. -/
theorem multi_coverage_assignment_witness :
    ∃ oc ∈ ocsOf (covSq 4) dbOverlap,
      (⟨3, "P", some 4, some 0, true, some 2, some [2, 3], none, 99, "pending", none⟩ :
        Row Int).cluster_postcodes = some oc.covered_postcodes ∧
      (⟨2, "P", some 2, some 0, true, some 3, some [1, 2, 3], none, 99, "pending", none⟩ :
        Row Int).id ∈ oc.covered_postcodes ∧
      (⟨2, "P", some 2, some 0, true, some 3, some [1, 2, 3], none, 99, "pending", none⟩ :
        Row Int).cluster_id = some oc.cluster_id :=
  (multi_coverage_assignment (covSq 4) 99 dbOverlap).1
    (⟨2, "P", some 2, some 0, true, some 3, some [1, 2, 3], none, 99, "pending", none⟩ :
      Row Int) (by decide)
    (⟨3, "P", some 4, some 0, true, some 2, some [2, 3], none, 99, "pending", none⟩ :
      Row Int) (by decide)

/-! ## Determinism -/

theorem rowKey_resetRow (r : Row α) : rowKey (resetRow r) = rowKey r := by
  unfold rowKey
  rw [resetRow_id, resetRow_postcode, resetRow_latitude, resetRow_longitude]

theorem numberedLocations_eq_filterMap (db : List (Row α)) :
    numberedLocations db = (db.map rowKey).filterMap geoOfKey := by
  rw [List.filterMap_map]
  unfold numberedLocations
  congr 1
  funext r
  rcases hla : r.latitude with _ | la <;> rcases hlo : r.longitude with _ | lo <;>
    simp [rowKey, geoOfKey, hla, hlo]

theorem relKey_apply_reset (now : Nat) (ocs : List (Selected α)) (r : Row α) :
    relKey (applyCenterUpdate now ocs (resetRow r)) = centerKeyOf ocs r.id := by
  rcases hfind : ocs.find? (fun oc => oc.center_id == (resetRow r).id) with _ | oc
  · rw [applyCenterUpdate_neg now hfind]
    unfold centerKeyOf
    rw [resetRow_id] at hfind
    rw [hfind]
    unfold relKey
    rw [resetRow_id, (resetRow_state r).1, (resetRow_state r).2]
    rfl
  · rw [applyCenterUpdate_pos now hfind]
    unfold centerKeyOf
    rw [resetRow_id] at hfind
    rw [hfind]
    unfold relKey
    rw [resetRow_id]
    rfl

theorem memberMatch_eq_keyMatch (p x : Row α) :
    memberMatch p x = keyMatch p.id (relKey x) := by
  unfold memberMatch keyMatch relKey
  cases hc : x.is_cluster_center <;> simp [hc]

theorem assignment_pair (now : Nat) (l : List (Row α)) (p : Row α) :
    ((memberUpdate now l p).id, (memberUpdate now l p).cluster_id) =
      assignPair (l.map relKey) (relKey p) := by
  have hfind : (l.map relKey).find? (keyMatch (relKey p).id) =
      (l.find? (memberMatch p)).map relKey := by
    rw [List.find?_map]
    rw [show (keyMatch (relKey p).id ∘ relKey : Row α → Bool) = memberMatch p from
      funext fun x => (memberMatch_eq_keyMatch p x).symm]
  unfold assignPair
  rw [hfind]
  rcases hf : l.find? (memberMatch p) with _ | c
  · rw [memberUpdate_neg now hf]
    rfl
  · rw [memberUpdate_pos now hf]
    rfl

/-- C6: the cluster-id-to-coverage-set mapping and the per-point assignment are
functions of the input point set (id, postcode, coordinates) and the coverage
predicate alone: two runs over tables that agree on those columns produce
identical results, whatever the stale mutable columns and the timestamps. -/
theorem determinism (covered : α → α → α → α → Bool) (now₁ now₂ : Nat)
    (db₁ db₂ : List (Row α)) (h : db₁.map rowKey = db₂.map rowKey) :
    clusterMap covered db₁ = clusterMap covered db₂ ∧
    assignment covered now₁ db₁ = assignment covered now₂ db₂ := by
  have hreset : ∀ db : List (Row α), (resetClusters db).map rowKey = db.map rowKey := by
    intro db
    unfold resetClusters
    rw [List.map_map]
    exact List.map_congr_left fun r _ => rowKey_resetRow r
  have hgeo : geoOf db₁ = geoOf db₂ := by
    unfold geoOf
    rw [numberedLocations_eq_filterMap, numberedLocations_eq_filterMap, hreset, hreset, h]
  have hocs : ocsOf covered db₁ = ocsOf covered db₂ := by
    unfold ocsOf
    rw [hgeo]
  have hid : db₁.map Row.id = db₂.map Row.id := by
    have h2 := congrArg (List.map Prod.fst) h
    rw [List.map_map, List.map_map] at h2
    exact h2
  have hkeys : ∀ (now : Nat) (db : List (Row α)),
      (db1Of covered now db).map relKey =
        (db.map Row.id).map (centerKeyOf (ocsOf covered db)) := by
    intro now db
    unfold db1Of resetClusters
    rw [List.map_map, List.map_map, List.map_map]
    exact List.map_congr_left fun r _ => relKey_apply_reset now _ r
  have hkeys12 : (db1Of covered now₁ db₁).map relKey = (db1Of covered now₂ db₂).map relKey := by
    rw [hkeys, hkeys, hid, hocs]
  have hassign : ∀ (now : Nat) (db : List (Row α)),
      assignment covered now db =
        ((db1Of covered now db).map relKey).map
          (assignPair ((db1Of covered now db).map relKey)) := by
    intro now db
    unfold assignment
    rw [generateClusters_fst, List.map_map, List.map_map]
    exact List.map_congr_left fun p _ => assignment_pair now _ p
  constructor
  · show (ocsOf covered db₁).map _ = (ocsOf covered db₂).map _
    rw [hocs]
  · rw [hassign, hassign, hkeys12]

/-- Witness for C6: two starting states with the same point set but different
stale cluster columns and different clock values produce the same mapping and
assignment. -/
theorem determinism_witness :
    clusterMap (covSq 4) dbDirty1 = clusterMap (covSq 4) dbDirty2 ∧
    assignment (covSq 4) 5 dbDirty1 = assignment (covSq 4) 77 dbDirty2 :=
  determinism (covSq 4) 5 77 dbDirty1 dbDirty2 (by decide)

end Directory
